import Mathlib

/-!
Shallow embedding of `newdepositmethods.py` (OxaPay deposit system):
the webhook crediting pipeline (`_oxapay_webhook`, `_verify_signature`,
the `_processed_orders` duplicate guard), the invoice-creation client
(`OxaPayClient.create_invoice` and its caller `oxapay_currency_selected`),
the order-reference encoding, and the custom-amount step of the deposit
conversation (`oxapay_receive_custom_amount`).

Modelling conventions:
* Python floats are modelled as rationals (`ℚ`); numeric payload fields are
  typed (`Option ℚ`), so payloads whose numeric fields fail `float()`
  conversion (which the handler's outer `except` turns into a no-op) are
  outside the model.
* The HMAC-SHA256 hex digest keyed by the merchant secret and the canonical
  JSON re-serialization (`json.dumps(verify_data, separators=(",", ":"))`)
  are abstracted as function parameters `hmacHex` and `serialize`; the
  comparison logic of `_verify_signature` and the exclusion of the `hmac`
  field are modelled concretely.
* Side effects are recorded in an explicit `WebhookState`:
  the `_processed_orders` set (as the list of inserted keys), the
  `credit_wallet_crypto` calls, and the Telegram notifications sent.
-/

namespace OxaPay

/-- `OXAPAY_MIN_DEPOSIT_USD: float = 5.0` — minimum invoice amount in USD. -/
def OXAPAY_MIN_DEPOSIT_USD : ℚ := 5

/-- The parsed webhook payload fields that `_oxapay_webhook` consumes.
`none` models an absent JSON field. -/
structure Payload where
  hmac : Option String
  status : Option String
  orderId : Option String
  trackId : Option String
  amount : Option ℚ
  currency : Option String
  payAmount : Option ℚ
  pay_amount : Option ℚ
deriving DecidableEq

/-- `verify_data = {k: v for k, v in data.items() if k != "hmac"}` —
the payload with the signature field removed. -/
def Payload.sansHmac (p : Payload) : Payload := { p with hmac := none }

/-- `_verify_signature(raw_body, received_hmac)`: recompute the keyed
HMAC-SHA256 hex digest of the body (abstracted as `hmacHex`) and compare
with the received signature (`hmac.compare_digest` — constant-time, but
semantically string equality). -/
def verify_signature (hmacHex : String → String) (raw_body : String)
    (received_hmac : String) : Bool :=
  hmacHex raw_body == received_hmac

/-- The accepted statuses: `("paid", "confirmed", "completed")`. -/
def acceptedStatuses : List String := ["paid", "confirmed", "completed"]

/-- `status not in ("paid", "confirmed", "completed")`, as a Bool gate. -/
def statusAccepted (s : String) : Bool := acceptedStatuses.contains s

/-- `dedup_key = order_id or track_id` (Python `or`: the empty string is
falsy, so `track_id` is used exactly when `order_id` is empty). -/
def dedupKey (p : Payload) : String :=
  let o := p.orderId.getD ""
  if o = "" then p.trackId.getD "" else o

/-- `raw_pay = data.get("payAmount")`, falling back to `data.get("pay_amount")`,
falling back to `amount_usd = float(data.get("amount", 0))`. -/
def payAmountOf (p : Payload) : ℚ :=
  match p.payAmount with
  | some q => q
  | none =>
    match p.pay_amount with
    | some q => q
    | none => p.amount.getD 0

/-- Python `str.lower()`: lower-case each character. -/
def pyLower (s : String) : String := String.mk (s.toList.map Char.toLower)

/-- Python `str.upper()`: upper-case each character. -/
def pyUpper (s : String) : String := String.mk (s.toList.map Char.toUpper)

/-- `paid_coin = data.get("currency", "USDT").upper()`. -/
def coinOf (p : Payload) : String := pyUpper (p.currency.getD "USDT")

/-- Python `int` on a digit-only string: decimal value of a digit list. -/
def decValue (l : List Char) : Nat := l.foldl (fun n c => 10 * n + (c.toNat - 48)) 0

/-- `tg_str = order_id.split("_")[0] if "_" in order_id else ""` followed by
`if not tg_str.isdigit(): reject` and `telegram_id = int(tg_str)`.
`split("_")[0]` is the prefix of the string before the first `'_'`. -/
def parseOrderRef (order_id : String) : Option Nat :=
  let cs := order_id.toList
  let tg := if cs.contains '_' then cs.takeWhile (fun c => c ≠ '_') else []
  if tg ≠ [] ∧ tg.all Char.isDigit then some (decValue tg) else none

/-- The observable side-effect state of the webhook endpoint:
`_processed_orders` (list of inserted dedup keys, most recent first),
the `credit_wallet_crypto(telegram_id, pay_amount, paid_coin)` calls, and
the users notified by Telegram DM. -/
structure WebhookState where
  processed : List String
  credits : List (Nat × ℚ × String)
  notified : List Nat
deriving DecidableEq

/-- One delivery through `_oxapay_webhook`.  Parameters:
`serialize` models `json.dumps(verify_data, separators=(",", ":"))`,
`hmacHex` the keyed HMAC-SHA256 hex digest, `user_wallets` membership of
`bot.user_wallets` (after `load_user_data_if_missing`), `bot_ref` whether
`_bot_ref` is set.  Mirrors the source: signature gate, status gate, field
extraction, duplicate guard (membership test then insert), non-positive
pay-amount gate, order-reference parse, wallet credit, notification.
The HTTP response is always 200 `"ok"` and is not part of the state. -/
def oxapay_webhook (serialize : Payload → String) (hmacHex : String → String)
    (user_wallets : Nat → Bool) (bot_ref : Bool)
    (p : Payload) (st : WebhookState) : WebhookState :=
  let received := p.hmac.getD ""
  if received ≠ "" ∧ verify_signature hmacHex (serialize p.sansHmac) received = false then
    st
  else if statusAccepted (pyLower (p.status.getD "")) = false then
    st
  else if dedupKey p ∈ st.processed then
    st
  else
    let st1 : WebhookState := { st with processed := dedupKey p :: st.processed }
    if payAmountOf p ≤ 0 then st1
    else
      match parseOrderRef (p.orderId.getD "") with
      | none => st1
      | some telegram_id =>
        let st2 : WebhookState :=
          if user_wallets telegram_id then
            { st1 with credits := (telegram_id, payAmountOf p, coinOf p) :: st1.credits }
          else st1
        if bot_ref then { st2 with notified := telegram_id :: st2.notified } else st2

/-- A sequence of webhook deliveries processed in arrival order. -/
def runWebhooks (serialize : Payload → String) (hmacHex : String → String)
    (user_wallets : Nat → Bool) (bot_ref : Bool)
    (ps : List Payload) (st : WebhookState) : WebhookState :=
  ps.foldl (fun s p => oxapay_webhook serialize hmacHex user_wallets bot_ref p s) st

/-- Decimal rendering of a natural number, as Python's `f"{n}"`
formatting produces: most significant digit first. -/
def natDecimal (n : Nat) : List Char :=
  if _h : n < 10 then [Nat.digitChar n]
  else natDecimal (n / 10) ++ [Nat.digitChar (n % 10)]
termination_by n
decreasing_by exact Nat.div_lt_self (by omega) (by norm_num)

/-- `order_id = f"{user_id}_{int(datetime.now(timezone.utc).timestamp())}"` —
the order reference built at invoice-creation time
(`oxapay_currency_selected`). -/
def buildOrderId (user_id ts : Nat) : String :=
  String.mk (natDecimal user_id ++ '_' :: natDecimal ts)

/-- The JSON response body of the invoice-creation endpoint, restricted to
the fields the client reads: `result` and the payment-link candidates
`payLink` / `payUrl` / `link`. -/
structure InvoiceResponse where
  result : Option Int
  payLink : Option String
  payUrl : Option String
  link : Option String
deriving DecidableEq

/-- The outcome of the single HTTP exchange `create_invoice` performs:
either a transport-level failure (`asyncio.TimeoutError`,
`aiohttp.ClientError`, or any other exception) or a response with an HTTP
status code and a parsed JSON body. -/
inductive HttpResult where
  | transportError
  | response (status : Nat) (body : InvoiceResponse)
deriving DecidableEq

/-- `OxaPayClient.create_invoice`: returns the response body on success,
`None` on failure.  Success requires HTTP status 200 and
`data.get("result") == 100`; a transport error, non-200 status, or other
result code is `None`.  The request is sent exactly once (no retry): the
model consumes a single `HttpResult`. -/
def create_invoice (r : HttpResult) : Option InvoiceResponse :=
  match r with
  | .transportError => none
  | .response status body =>
    if status ≠ 200 then none
    else if body.result = some 100 then some body else none

/-- `pay_link = result.get("payLink") or result.get("payUrl") or
result.get("link", "")` — Python `or` chain over string fields, where
`None` and the empty string are falsy. -/
def extractPayLink (b : InvoiceResponse) : String :=
  let a := b.payLink.getD ""
  if a ≠ "" then a
  else
    let u := b.payUrl.getD ""
    if u ≠ "" then u else b.link.getD ""

/-- The caller side (`oxapay_currency_selected`): `create_invoice` returning
`None`, or a missing/empty payment link, is a user-visible failure that ends
the flow (`some link` = the payment link presented; `none` = failure). -/
def invoiceFlowOutcome (r : HttpResult) : Option String :=
  match create_invoice r with
  | none => none
  | some body =>
    let link := extractPayLink body
    if link = "" then none else some link

/-- The conversation states of the deposit flow
(`_STATE_AMOUNT` / `_STATE_CURRENCY` / `_STATE_CUSTOM` and
`ConversationHandler.END`). -/
inductive FlowState where
  | AMOUNT
  | CURRENCY
  | CUSTOM
  | FLOW_END
deriving DecidableEq

/-- Python `str.strip()`: drop whitespace from both ends. -/
def pyStrip (s : String) : String :=
  String.mk (((s.toList.dropWhile Char.isWhitespace).reverse.dropWhile
    Char.isWhitespace).reverse)

/-- The digit runs of a Python decimal float literal: sign, integer digits,
fractional digits, exponent sign and exponent digits (`ed = []` when no
exponent is written). -/
structure FloatSyntax where
  neg : Bool
  ip : List Char
  fp : List Char
  expNeg : Bool
  ed : List Char
deriving DecidableEq

/-- The syntactic part of Python `float(s)` on the decimal-numeral fragment
of its grammar: optional sign, then digits and/or a `.`-separated
fractional part (at least one digit overall), then an optional exponent
(`e`/`E`, optional sign, at least one digit, consuming the rest of the
string).  Non-finite literals (`inf`, `nan`) and digit-group underscores
are outside the model. -/
def pyFloatSyntax (s : String) : Option FloatSyntax :=
  let cs := s.toList
  let signAndRest : Bool × List Char :=
    match cs with
    | '+' :: rest => (false, rest)
    | '-' :: rest => (true, rest)
    | _ => (false, cs)
  let neg := signAndRest.1
  let cs1 := signAndRest.2
  let ip := cs1.takeWhile Char.isDigit
  let cs2 := cs1.dropWhile Char.isDigit
  let fracAndRest : List Char × List Char :=
    match cs2 with
    | '.' :: rest => (rest.takeWhile Char.isDigit, rest.dropWhile Char.isDigit)
    | _ => ([], cs2)
  let fp := fracAndRest.1
  let cs3 := fracAndRest.2
  if ip = [] ∧ fp = [] then none
  else
    match cs3 with
    | [] => some ⟨neg, ip, fp, false, []⟩
    | e :: rest =>
      if e = 'e' ∨ e = 'E' then
        let expSignAndRest : Bool × List Char :=
          match rest with
          | '+' :: r2 => (false, r2)
          | '-' :: r2 => (true, r2)
          | _ => (false, rest)
        let ed := expSignAndRest.2.takeWhile Char.isDigit
        let tail := expSignAndRest.2.dropWhile Char.isDigit
        if ed = [] ∨ tail ≠ [] then none
        else some ⟨neg, ip, fp, expSignAndRest.1, ed⟩
      else none

/-- The exact rational value of a parsed decimal float literal. -/
def floatVal (f : FloatSyntax) : ℚ :=
  let mant : ℚ := (decValue f.ip : ℚ) + (decValue f.fp : ℚ) / (10 : ℚ) ^ f.fp.length
  let signed : ℚ := if f.neg then -mant else mant
  if f.expNeg then signed / (10 : ℚ) ^ decValue f.ed
  else signed * (10 : ℚ) ^ decValue f.ed

/-- Python `float(s)` on the decimal-numeral fragment of its grammar. -/
def pyFloat (s : String) : Option ℚ := (pyFloatSyntax s).map floatVal

/-- The numeric conversion applied to the typed custom-amount text:
`text = (update.message.text or "").strip()` then
`float(text.replace(",", ""))` (removing every comma). -/
def customAmountParse (msgText : String) : Option ℚ :=
  pyFloat (String.mk ((pyStrip msgText).toList.filter (fun c => c ≠ ',')))

/-- The observable outcome of one `oxapay_receive_custom_amount` call:
the returned conversation state, the stored
`context.user_data["oxapay_usd_amount"]`, and whether the invalid-amount
error reply was sent. -/
structure CustomAmountOutcome where
  nextState : FlowState
  usd_amount : Option ℚ
  errorReply : Bool
deriving DecidableEq

/-- `oxapay_receive_custom_amount`: parse the typed text; a parse failure or
an amount below `OXAPAY_MIN_DEPOSIT_USD` raises `ValueError`, replies with
the error message and stays in `_STATE_CUSTOM`; otherwise the amount is
stored and the flow moves to the currency selector (`_STATE_CURRENCY`). -/
def oxapay_receive_custom_amount (msgText : String) (stored : Option ℚ) :
    CustomAmountOutcome :=
  match customAmountParse msgText with
  | none => ⟨FlowState.CUSTOM, stored, true⟩
  | some amount =>
    if amount < OXAPAY_MIN_DEPOSIT_USD then ⟨FlowState.CUSTOM, stored, true⟩
    else ⟨FlowState.CURRENCY, some amount, false⟩

theorem digitChar_facts :
    ∀ d < 10, (Nat.digitChar d).toNat = 48 + d ∧ (Nat.digitChar d).isDigit = true ∧
      Nat.digitChar d ≠ '_' := by decide

theorem natDecimal_ne_nil (n : Nat) : natDecimal n ≠ [] := by
  unfold natDecimal
  split <;> simp

theorem natDecimal_mem (n : Nat) : ∀ c ∈ natDecimal n, c.isDigit = true ∧ c ≠ '_' := by
  induction n using Nat.strong_induction_on with
  | _ n ih =>
    unfold natDecimal
    split
    · next h =>
      intro c hc
      simp only [List.mem_singleton] at hc
      subst hc
      exact ⟨(digitChar_facts n h).2.1, (digitChar_facts n h).2.2⟩
    · next h =>
      intro c hc
      rcases List.mem_append.mp hc with hc | hc
      · exact ih (n / 10) (Nat.div_lt_self (by omega) (by norm_num)) c hc
      · simp only [List.mem_singleton] at hc
        subst hc
        exact ⟨(digitChar_facts (n % 10) (Nat.mod_lt _ (by norm_num))).2.1,
          (digitChar_facts (n % 10) (Nat.mod_lt _ (by norm_num))).2.2⟩

theorem decValue_append_digit (l : List Char) (c : Char) :
    decValue (l ++ [c]) = 10 * decValue l + (c.toNat - 48) := by
  unfold decValue
  rw [List.foldl_append]
  rfl

theorem decValue_natDecimal (n : Nat) : decValue (natDecimal n) = n := by
  induction n using Nat.strong_induction_on with
  | _ n ih =>
    unfold natDecimal
    split
    · next h =>
      simp [decValue, (digitChar_facts n h).1]
    · next h =>
      rw [decValue_append_digit, ih (n / 10) (Nat.div_lt_self (by omega) (by norm_num)),
        (digitChar_facts (n % 10) (Nat.mod_lt _ (by norm_num))).1]
      omega

theorem takeWhile_append_sep {α : Type} (p : α → Bool) (l r : List α) (c : α)
    (hl : ∀ x ∈ l, p x = true) (hc : p c = false) :
    (l ++ c :: r).takeWhile p = l := by
  induction l with
  | nil => simp [List.takeWhile_cons, hc]
  | cons a as ih =>
    simp only [List.cons_append, List.takeWhile_cons, hl a (by simp)]
    simp [ih (fun x hx => hl x (by simp [hx]))]

/-- C6: the order reference built at invoice-creation time as
`f"{user_id}_{timestamp}"` is parsed by the webhook handler back to exactly
the telegram user id: the integer prefix before the first underscore. -/
theorem order_reference_roundtrip (u t : Nat) :
    parseOrderRef (buildOrderId u t) = some u := by
  have hlist : (buildOrderId u t).toList = natDecimal u ++ '_' :: natDecimal t := rfl
  have hc : ((natDecimal u ++ '_' :: natDecimal t).contains '_') = true := by
    simp
  have htake : (natDecimal u ++ '_' :: natDecimal t).takeWhile (fun c => c ≠ '_') =
      natDecimal u := by
    refine takeWhile_append_sep _ _ _ _ (fun x hx => ?_) (by simp)
    simpa using (natDecimal_mem u x hx).2
  have hall : (natDecimal u).all Char.isDigit = true :=
    List.all_eq_true.mpr fun x hx => (natDecimal_mem u x hx).1
  simp only [parseOrderRef, hlist, hc, if_true, htake]
  rw [if_pos ⟨natDecimal_ne_nil u, hall⟩, decValue_natDecimal]

theorem statusAccepted_iff (s : String) :
    statusAccepted s = true ↔ s ∈ acceptedStatuses := by
  simp [statusAccepted]

theorem oxapay_webhook_of_mem (serialize : Payload → String) (hmacHex : String → String)
    (user_wallets : Nat → Bool) (bot_ref : Bool) (p : Payload) (st : WebhookState)
    (h : dedupKey p ∈ st.processed) :
    oxapay_webhook serialize hmacHex user_wallets bot_ref p st = st := by
  by_cases h1 : (p.hmac.getD "" ≠ "" ∧
      verify_signature hmacHex (serialize p.sansHmac) (p.hmac.getD "") = false)
  · simp only [oxapay_webhook]
    rw [if_pos h1]
  by_cases h2 : statusAccepted (pyLower (p.status.getD "")) = false
  · simp only [oxapay_webhook]
    rw [if_neg h1, if_pos h2]
  · simp only [oxapay_webhook]
    rw [if_neg h1, if_neg h2, if_pos h]

theorem oxapay_webhook_cases (serialize : Payload → String) (hmacHex : String → String)
    (user_wallets : Nat → Bool) (bot_ref : Bool) (p : Payload) (st : WebhookState) :
    oxapay_webhook serialize hmacHex user_wallets bot_ref p st = st ∨
    (dedupKey p ∉ st.processed ∧
     (oxapay_webhook serialize hmacHex user_wallets bot_ref p st).processed =
        dedupKey p :: st.processed ∧
     ((oxapay_webhook serialize hmacHex user_wallets bot_ref p st).credits = st.credits ∨
      ∃ c, (oxapay_webhook serialize hmacHex user_wallets bot_ref p st).credits =
        c :: st.credits)) := by
  by_cases h1 : (p.hmac.getD "" ≠ "" ∧
      verify_signature hmacHex (serialize p.sansHmac) (p.hmac.getD "") = false)
  · exact Or.inl (by simp only [oxapay_webhook]; rw [if_pos h1])
  by_cases h2 : statusAccepted (pyLower (p.status.getD "")) = false
  · exact Or.inl (by simp only [oxapay_webhook]; rw [if_neg h1, if_pos h2])
  by_cases h3 : dedupKey p ∈ st.processed
  · exact Or.inl (oxapay_webhook_of_mem serialize hmacHex user_wallets bot_ref p st h3)
  refine Or.inr ⟨h3, ?_⟩
  by_cases h4 : payAmountOf p ≤ 0
  · simp only [oxapay_webhook]
    rw [if_neg h1, if_neg h2, if_neg h3, if_pos h4]
    exact ⟨rfl, Or.inl rfl⟩
  cases hp : parseOrderRef (p.orderId.getD "") with
  | none =>
    simp only [oxapay_webhook, hp]
    rw [if_neg h1, if_neg h2, if_neg h3, if_neg h4]
    exact ⟨rfl, Or.inl rfl⟩
  | some tid =>
    simp only [oxapay_webhook, hp]
    rw [if_neg h1, if_neg h2, if_neg h3, if_neg h4]
    by_cases hw : user_wallets tid <;> by_cases hb : bot_ref <;>
      simp [hw, hb]

theorem oxapay_webhook_happy (serialize : Payload → String) (hmacHex : String → String)
    (user_wallets : Nat → Bool) (bot_ref : Bool) (p : Payload) (st : WebhookState)
    (tid : Nat)
    (hsig : ¬ (p.hmac.getD "" ≠ "" ∧
      verify_signature hmacHex (serialize p.sansHmac) (p.hmac.getD "") = false))
    (hstatus : pyLower (p.status.getD "") ∈ acceptedStatuses)
    (hfresh : dedupKey p ∉ st.processed)
    (hpay : 0 < payAmountOf p)
    (hparse : parseOrderRef (p.orderId.getD "") = some tid)
    (hw : user_wallets tid = true) :
    oxapay_webhook serialize hmacHex user_wallets bot_ref p st =
      { processed := dedupKey p :: st.processed,
        credits := (tid, payAmountOf p, coinOf p) :: st.credits,
        notified := if bot_ref then tid :: st.notified else st.notified } := by
  have h2 : ¬ statusAccepted (pyLower (p.status.getD "")) = false := by
    rw [(statusAccepted_iff _).mpr hstatus]
    decide
  have h4 : ¬ payAmountOf p ≤ 0 := not_le.mpr hpay
  simp only [oxapay_webhook, hparse]
  rw [if_neg hsig, if_neg h2, if_neg hfresh, if_neg h4, if_pos hw]
  by_cases hb : bot_ref <;> simp [hb]

theorem runWebhooks_inv (serialize : Payload → String) (hmacHex : String → String)
    (user_wallets : Nat → Bool) (bot_ref : Bool) (k : String)
    (ps : List Payload) (hk : ∀ p ∈ ps, dedupKey p = k) (st : WebhookState)
    (hst : (st.processed = [] ∧ st.credits = []) ∨
           (st.processed = [k] ∧ st.credits.length ≤ 1)) :
    ((runWebhooks serialize hmacHex user_wallets bot_ref ps st).processed = [] ∧
      (runWebhooks serialize hmacHex user_wallets bot_ref ps st).credits = []) ∨
    ((runWebhooks serialize hmacHex user_wallets bot_ref ps st).processed = [k] ∧
      (runWebhooks serialize hmacHex user_wallets bot_ref ps st).credits.length ≤ 1) := by
  induction ps generalizing st with
  | nil => simpa [runWebhooks] using hst
  | cons p ps ih =>
    have hkp : dedupKey p = k := hk p (by simp)
    have hrest : ∀ q ∈ ps, dedupKey q = k := fun q hq => hk q (by simp [hq])
    have hstep : runWebhooks serialize hmacHex user_wallets bot_ref (p :: ps) st =
        runWebhooks serialize hmacHex user_wallets bot_ref ps
          (oxapay_webhook serialize hmacHex user_wallets bot_ref p st) := rfl
    rw [hstep]
    refine ih hrest (oxapay_webhook serialize hmacHex user_wallets bot_ref p st) ?_
    rcases oxapay_webhook_cases serialize hmacHex user_wallets bot_ref p st with
      heq | ⟨hniq, hproc, hcred⟩
    · rw [heq]; exact hst
    · rcases hst with ⟨h1, h2⟩ | ⟨h1, h2⟩
      · right
        refine ⟨by rw [hproc, h1, hkp], ?_⟩
        rcases hcred with hc | ⟨c, hc⟩
        · rw [hc, h2]; simp
        · rw [hc, h2]; simp
      · exact absurd (by rw [hkp, h1]; simp) hniq

/-- C1: for every sequence of webhook deliveries carrying the same dedup key
(`order_id`, or `track_id` when `order_id` is empty), at most one wallet
credit is ever applied regardless of delivery count or ordering; the dedup
key is inserted into the processed-order set at most once; and any delivery
that produces a credit is one for which the key was absent before the
delivery and present after it — the insertion happens within that same
delivery, strictly before the credit side effect. -/
theorem webhook_same_key_at_most_one_credit (serialize : Payload → String)
    (hmacHex : String → String) (user_wallets : Nat → Bool) (bot_ref : Bool)
    (k : String) (ps : List Payload) (hk : ∀ p ∈ ps, dedupKey p = k) :
    (runWebhooks serialize hmacHex user_wallets bot_ref ps ⟨[], [], []⟩).credits.length ≤ 1 ∧
    (runWebhooks serialize hmacHex user_wallets bot_ref ps ⟨[], [], []⟩).processed.count k ≤ 1 ∧
    (∀ p st,
      (oxapay_webhook serialize hmacHex user_wallets bot_ref p st).credits ≠ st.credits →
      dedupKey p ∉ st.processed ∧
      dedupKey p ∈ (oxapay_webhook serialize hmacHex user_wallets bot_ref p st).processed) := by
  have hinv := runWebhooks_inv serialize hmacHex user_wallets bot_ref k ps hk ⟨[], [], []⟩
    (Or.inl ⟨rfl, rfl⟩)
  refine ⟨?_, ?_, ?_⟩
  · rcases hinv with ⟨_, h⟩ | ⟨_, h⟩
    · rw [h]; simp
    · exact h
  · rcases hinv with ⟨h, _⟩ | ⟨h, _⟩
    · rw [h]; simp
    · rw [h]; simp
  · intro p st hne
    rcases oxapay_webhook_cases serialize hmacHex user_wallets bot_ref p st with
      heq | ⟨hniq, hproc, _⟩
    · exact absurd (congrArg WebhookState.credits heq) hne
    · exact ⟨hniq, by rw [hproc]; exact List.mem_cons_self _ _⟩

theorem webhook_same_key_at_most_one_credit_witness :
    (runWebhooks (fun _ => "b") (fun _ => "h") (fun _ => true) true
      [⟨none, some "paid", some "12345_1700000000", none, some 50, some "BTC", some 1, none⟩,
       ⟨none, some "paid", some "12345_1700000000", none, some 50, some "BTC", some 1, none⟩]
      ⟨[], [], []⟩).credits.length ≤ 1 :=
  (webhook_same_key_at_most_one_credit (fun _ => "b") (fun _ => "h") (fun _ => true) true
    "12345_1700000000"
    [⟨none, some "paid", some "12345_1700000000", none, some 50, some "BTC", some 1, none⟩,
     ⟨none, some "paid", some "12345_1700000000", none, some 50, some "BTC", some 1, none⟩]
    (by decide)).1

/-- C2: a webhook delivery carrying a (non-empty) signature that does not
verify against the keyed HMAC-SHA256 of the payload with the signature field
excluded is dropped whole: the state is unchanged, so no credit is applied
and no dedup key is recorded.  (An empty-string `hmac` value is treated by
the handler as no signature at all; that behaviour is stated separately.) -/
theorem invalid_signature_drops_event (serialize : Payload → String)
    (hmacHex : String → String) (user_wallets : Nat → Bool) (bot_ref : Bool)
    (p : Payload) (st : WebhookState) (s : String)
    (hs : p.hmac = some s) (hne : s ≠ "")
    (hbad : verify_signature hmacHex (serialize p.sansHmac) s = false) :
    oxapay_webhook serialize hmacHex user_wallets bot_ref p st = st := by
  simp only [oxapay_webhook, hs, Option.getD_some]
  rw [if_pos ⟨hne, hbad⟩]

theorem invalid_signature_drops_event_witness :
    oxapay_webhook (fun _ => "body") (fun _ => "aa") (fun _ => true) true
      ⟨some "ff", some "paid", some "12345_1700000000", none, some 50, some "BTC",
        some 1, none⟩
      ⟨[], [], []⟩ = ⟨[], [], []⟩ :=
  invalid_signature_drops_event (fun _ => "body") (fun _ => "aa") (fun _ => true) true
    ⟨some "ff", some "paid", some "12345_1700000000", none, some 50, some "BTC",
      some 1, none⟩
    ⟨[], [], []⟩ "ff" rfl (by decide) (by decide)

/-- C4: a webhook delivery whose status (lowercased) is outside
`("paid", "confirmed", "completed")` leaves the state unchanged: no credit
occurs and nothing is recorded. -/
theorem unaccepted_status_no_credit (serialize : Payload → String)
    (hmacHex : String → String) (user_wallets : Nat → Bool) (bot_ref : Bool)
    (p : Payload) (st : WebhookState)
    (h : (pyLower (p.status.getD "")) ∉ acceptedStatuses) :
    oxapay_webhook serialize hmacHex user_wallets bot_ref p st = st := by
  have hb : statusAccepted (pyLower (p.status.getD "")) = false := by
    cases hsa : statusAccepted (pyLower (p.status.getD "")) with
    | true => exact absurd ((statusAccepted_iff _).mp hsa) h
    | false => rfl
  by_cases h1 : (p.hmac.getD "" ≠ "" ∧
      verify_signature hmacHex (serialize p.sansHmac) (p.hmac.getD "") = false)
  · simp only [oxapay_webhook]
    rw [if_pos h1]
  · simp only [oxapay_webhook]
    rw [if_neg h1, if_pos hb]

theorem unaccepted_status_no_credit_witness :
    oxapay_webhook (fun _ => "b") (fun _ => "h") (fun _ => true) true
      ⟨none, some "pending", some "12345_1700000000", none, some 50, some "BTC",
        some 1, none⟩
      ⟨[], [], []⟩ = ⟨[], [], []⟩ :=
  unaccepted_status_no_credit (fun _ => "b") (fun _ => "h") (fun _ => true) true
    ⟨none, some "pending", some "12345_1700000000", none, some 50, some "BTC",
      some 1, none⟩
    ⟨[], [], []⟩ (by decide)

/-- C8: a payload whose `hmac` field is present but equal to the empty
string is handled exactly as if the field were absent: the empty string is
falsy, so signature verification is skipped entirely and the event proceeds
to status checking and crediting unauthenticated. -/
theorem empty_hmac_treated_as_absent (serialize : Payload → String)
    (hmacHex : String → String) (user_wallets : Nat → Bool) (bot_ref : Bool)
    (p : Payload) (st : WebhookState) (h : p.hmac = some "") :
    oxapay_webhook serialize hmacHex user_wallets bot_ref p st =
      oxapay_webhook serialize hmacHex user_wallets bot_ref { p with hmac := none } st := by
  obtain ⟨hm, f2, f3, f4, f5, f6, f7, f8⟩ := p
  replace h : hm = some "" := h
  subst h
  rfl

theorem empty_hmac_treated_as_absent_witness :
    oxapay_webhook (fun _ => "b") (fun _ => "h") (fun _ => true) true
      ⟨some "", some "paid", some "12345_1700000000", none, some 50, some "BTC",
        some 1, none⟩ ⟨[], [], []⟩ =
    oxapay_webhook (fun _ => "b") (fun _ => "h") (fun _ => true) true
      ⟨none, some "paid", some "12345_1700000000", none, some 50, some "BTC",
        some 1, none⟩ ⟨[], [], []⟩ :=
  empty_hmac_treated_as_absent (fun _ => "b") (fun _ => "h") (fun _ => true) true
    ⟨some "", some "paid", some "12345_1700000000", none, some 50, some "BTC",
      some 1, none⟩ ⟨[], [], []⟩ rfl

/-- C9: when the payload contains neither `payAmount` nor `pay_amount`, the
pay amount defaults to the USD `amount` field, and (on the accepted path)
the wallet is credited with `amount` units of the paid currency instead of
the event being rejected. -/
theorem missing_pay_amount_defaults_to_amount_usd (serialize : Payload → String)
    (hmacHex : String → String) (user_wallets : Nat → Bool) (bot_ref : Bool)
    (p : Payload) (st : WebhookState) (tid : Nat)
    (h1 : p.payAmount = none) (h2 : p.pay_amount = none)
    (hsig : p.hmac.getD "" = "" ∨
      verify_signature hmacHex (serialize p.sansHmac) (p.hmac.getD "") = true)
    (hstatus : pyLower (p.status.getD "") ∈ acceptedStatuses)
    (hfresh : dedupKey p ∉ st.processed)
    (hpos : 0 < p.amount.getD 0)
    (hparse : parseOrderRef (p.orderId.getD "") = some tid)
    (hw : user_wallets tid = true) :
    (oxapay_webhook serialize hmacHex user_wallets bot_ref p st).credits =
      (tid, p.amount.getD 0, coinOf p) :: st.credits := by
  have hpa : payAmountOf p = p.amount.getD 0 := by
    simp [payAmountOf, h1, h2]
  have hsig' : ¬ (p.hmac.getD "" ≠ "" ∧
      verify_signature hmacHex (serialize p.sansHmac) (p.hmac.getD "") = false) := by
    rcases hsig with h | h
    · exact fun hc => hc.1 h
    · intro hc
      rw [h] at hc
      exact absurd hc.2 (by decide)
  rw [oxapay_webhook_happy serialize hmacHex user_wallets bot_ref p st tid hsig' hstatus
    hfresh (by rw [hpa]; exact hpos) hparse hw]
  simp [hpa]

theorem missing_pay_amount_defaults_to_amount_usd_witness :
    (oxapay_webhook (fun _ => "b") (fun _ => "h") (fun _ => true) true
      ⟨none, some "paid", some "12345_1700000000", none, some 50, some "BTC",
        none, none⟩ ⟨[], [], []⟩).credits = [(12345, 50, "BTC")] :=
  missing_pay_amount_defaults_to_amount_usd (fun _ => "b") (fun _ => "h")
    (fun _ => true) true
    ⟨none, some "paid", some "12345_1700000000", none, some 50, some "BTC",
      none, none⟩ ⟨[], [], []⟩ 12345 rfl rfl (Or.inl rfl) (by decide) (by decide)
    (by decide) (by decide) rfl

/-- C10: status matching is case-insensitive — any payload whose status
lowercases into `("paid", "confirmed", "completed")` passes the status gate
and (with the other acceptance conditions met) is credited. -/
theorem status_match_case_insensitive (serialize : Payload → String)
    (hmacHex : String → String) (user_wallets : Nat → Bool) (bot_ref : Bool)
    (p : Payload) (st : WebhookState) (tid : Nat)
    (hsig : p.hmac.getD "" = "" ∨
      verify_signature hmacHex (serialize p.sansHmac) (p.hmac.getD "") = true)
    (hstatus : pyLower (p.status.getD "") ∈ acceptedStatuses)
    (hfresh : dedupKey p ∉ st.processed)
    (hpay : 0 < payAmountOf p)
    (hparse : parseOrderRef (p.orderId.getD "") = some tid)
    (hw : user_wallets tid = true) :
    (oxapay_webhook serialize hmacHex user_wallets bot_ref p st).credits =
      (tid, payAmountOf p, coinOf p) :: st.credits := by
  have hsig' : ¬ (p.hmac.getD "" ≠ "" ∧
      verify_signature hmacHex (serialize p.sansHmac) (p.hmac.getD "") = false) := by
    rcases hsig with h | h
    · exact fun hc => hc.1 h
    · intro hc
      rw [h] at hc
      exact absurd hc.2 (by decide)
  rw [oxapay_webhook_happy serialize hmacHex user_wallets bot_ref p st tid hsig' hstatus
    hfresh hpay hparse hw]

theorem status_match_case_insensitive_witness :
    (oxapay_webhook (fun _ => "b") (fun _ => "h") (fun _ => true) true
      ⟨none, some "PAID", some "12345_1700000000", none, some 50, some "BTC",
        some 1, none⟩ ⟨[], [], []⟩).credits = [(12345, 1, "BTC")] :=
  status_match_case_insensitive (fun _ => "b") (fun _ => "h") (fun _ => true) true
    ⟨none, some "PAID", some "12345_1700000000", none, some 50, some "BTC",
      some 1, none⟩ ⟨[], [], []⟩ 12345 (Or.inl rfl) (by decide) (by decide)
    (by decide) (by decide) rfl

/-- C3 divergence: a confirmed payment whose order reference resolves to a
user with no wallet record is not credited (`credits` stays empty), yet the
handler still proceeds to the notification block and sends the user the
"Deposit Confirmed — your balance has been credited" message
(`notified = [12345]`): the notification is not skipped for this
business-rule rejection, contradicting the claim that no user notification
is sent. -/
theorem missing_wallet_rejection_still_notifies :
    oxapay_webhook (fun _ => "b") (fun _ => "h") (fun _ => false) true
      ⟨none, some "paid", some "12345_1700000000", none, some 50, some "BTC",
        some 1, none⟩ ⟨[], [], []⟩ =
      ⟨["12345_1700000000"], [], [12345]⟩ := by
  decide

/-- C5: invoice creation succeeds — i.e. a payment link is presented to the
user — exactly when the single HTTP exchange (no retry is performed: the
model consumes one `HttpResult`) returned HTTP 200 with `result == 100` and
a non-empty payment link under one of `payLink` / `payUrl` / `link`; a
transport error or timeout, a non-200 status, a non-success result code, or
a missing/empty link each yield a Failure (`none`). -/
theorem create_invoice_success_characterization :
    (∀ (link : String) (r : HttpResult), invoiceFlowOutcome r = some link ↔
      ∃ body, r = HttpResult.response 200 body ∧ body.result = some 100 ∧
        extractPayLink body = link ∧ link ≠ "") ∧
    invoiceFlowOutcome HttpResult.transportError = none ∧
    (∀ s body, s ≠ 200 → invoiceFlowOutcome (HttpResult.response s body) = none) ∧
    (∀ s body, body.result ≠ some 100 →
      invoiceFlowOutcome (HttpResult.response s body) = none) ∧
    (∀ body, extractPayLink body = "" →
      invoiceFlowOutcome (HttpResult.response 200 body) = none) := by
  have hfail : ∀ s body, s ≠ 200 ∨ body.result ≠ some 100 →
      invoiceFlowOutcome (HttpResult.response s body) = none := by
    intro s body h
    by_cases hs : s = 200
    · rcases h with h | h
      · exact absurd hs h
      · simp [invoiceFlowOutcome, create_invoice, hs, h]
    · simp [invoiceFlowOutcome, create_invoice, hs]
  refine ⟨?_, rfl, fun s body h => hfail s body (Or.inl h),
    fun s body h => hfail s body (Or.inr h), ?_⟩
  · intro link r
    constructor
    · intro h
      cases r with
      | transportError => simp [invoiceFlowOutcome, create_invoice] at h
      | response s body =>
        by_cases hs : s = 200
        · subst hs
          by_cases hr : body.result = some 100
          · by_cases hl : extractPayLink body = ""
            · simp [invoiceFlowOutcome, create_invoice, hr, hl] at h
            · have heq : extractPayLink body = link := by
                simpa [invoiceFlowOutcome, create_invoice, hr, hl] using h
              exact ⟨body, rfl, hr, heq, heq ▸ hl⟩
          · rw [hfail 200 body (Or.inr hr)] at h
            exact absurd h (by simp)
        · rw [hfail s body (Or.inl hs)] at h
          exact absurd h (by simp)
    · rintro ⟨body, rfl, hr, hl, hne⟩
      subst hl
      simp [invoiceFlowOutcome, create_invoice, hr, hne]
  · intro body hl
    by_cases hr : body.result = some 100
    · simp [invoiceFlowOutcome, create_invoice, hr, hl]
    · exact hfail 200 body (Or.inr hr)

theorem create_invoice_success_characterization_witness :
    invoiceFlowOutcome (HttpResult.response 500 ⟨some 100, some "L", none, none⟩) =
      none ∧
    invoiceFlowOutcome (HttpResult.response 200 ⟨some 100, some "https:x", none, none⟩) =
      some "https:x" :=
  ⟨create_invoice_success_characterization.2.2.1 500 ⟨some 100, some "L", none, none⟩
      (by decide),
   (create_invoice_success_characterization.1 "https:x"
      (HttpResult.response 200 ⟨some 100, some "https:x", none, none⟩)).mpr
      ⟨⟨some 100, some "https:x", none, none⟩, rfl, rfl, rfl, by decide⟩⟩

/-- C7: a typed custom amount that does not parse as a number, or parses
below the configured minimum deposit (`OXAPAY_MIN_DEPOSIT_USD = 5`, which is
positive, so every non-positive parse is also below it), keeps the flow in
the custom-input state, leaves the stored amount untouched, and sends the
error re-prompt; a parse at or above the minimum stores the amount and
moves the flow to currency selection with no error. -/
theorem custom_amount_state_machine (msgText : String) (stored : Option ℚ) :
    ((∀ a, customAmountParse msgText = some a → a < OXAPAY_MIN_DEPOSIT_USD) →
      oxapay_receive_custom_amount msgText stored =
        ⟨FlowState.CUSTOM, stored, true⟩) ∧
    (∀ a, customAmountParse msgText = some a → OXAPAY_MIN_DEPOSIT_USD ≤ a →
      oxapay_receive_custom_amount msgText stored =
        ⟨FlowState.CURRENCY, some a, false⟩) := by
  constructor
  · intro h
    cases hp : customAmountParse msgText with
    | none => simp [oxapay_receive_custom_amount, hp]
    | some a =>
      simp only [oxapay_receive_custom_amount, hp]
      rw [if_pos (h a hp)]
  · intro a hp hge
    simp only [oxapay_receive_custom_amount, hp]
    rw [if_neg (not_lt.mpr hge)]

theorem custom_amount_state_machine_witness :
    oxapay_receive_custom_amount "3" none = ⟨FlowState.CUSTOM, none, true⟩ ∧
    oxapay_receive_custom_amount "50" none =
      ⟨FlowState.CURRENCY, some 50, false⟩ := by
  have hs3 : pyFloatSyntax (String.mk ((pyStrip "3").toList.filter
      (fun c => c ≠ ','))) = some ⟨false, ['3'], [], false, []⟩ := by decide
  have hv3 : customAmountParse "3" = some 3 := by
    have hstep : customAmountParse "3" =
        (pyFloatSyntax (String.mk ((pyStrip "3").toList.filter
          (fun c => c ≠ ',')))).map floatVal := rfl
    rw [hstep, hs3, Option.map_some']
    have hd : decValue ['3'] = 3 := by decide
    have hd0 : decValue ([] : List Char) = 0 := rfl
    norm_num [floatVal, hd, hd0]
  have hs50 : pyFloatSyntax (String.mk ((pyStrip "50").toList.filter
      (fun c => c ≠ ','))) = some ⟨false, ['5', '0'], [], false, []⟩ := by decide
  have hv50 : customAmountParse "50" = some 50 := by
    have hstep : customAmountParse "50" =
        (pyFloatSyntax (String.mk ((pyStrip "50").toList.filter
          (fun c => c ≠ ',')))).map floatVal := rfl
    rw [hstep, hs50, Option.map_some']
    have hd : decValue ['5', '0'] = 50 := by decide
    have hd0 : decValue ([] : List Char) = 0 := rfl
    norm_num [floatVal, hd, hd0]
  constructor
  · refine (custom_amount_state_machine "3" none).1 ?_
    intro a ha
    rw [hv3] at ha
    cases ha
    decide
  · exact (custom_amount_state_machine "50" none).2 50 hv50 (by decide)

end OxaPay
